import Mathlib

/-!
Shallow embedding of the core of the `s1-etad` repository
(`src/sentinel1Etad.py`): the per-burst correction accessor
(`Sentinel1EtadBurst`), the swath deburst/merge engine
(`Sentinel1EtadSwath._burst_merger`) and the burst-catalogue query
(`Sentinel1Etad.query_burst`).

Conventions of the embedding:
* Azimuth/range times and stored correction values are rationals (`ℚ`);
  the Python code uses IEEE doubles, whose rounding plays no role in the
  control flow modelled here.
* `np.round` on scalars rounds half to even; `npRound` reproduces that.
* A netCDF burst group is a `Burst`: its scalar attributes, its 1-D
  `azimuth` grid variable, and a partial map `vars` from variable names to
  2-D arrays in the stored (netCDF) orientation.
* Python exceptions are modelled by `Except`/`Option` results.  The
  `IndexError` raised by `burst_index_list[0]` on an empty selection is
  the `EmptySelectionError` of the design taxonomy, and the
  `AssertionError` raised by the sampling/range-origin asserts is its
  `InconsistentSamplingError`.
* numpy row assignment `a[idx, :] = v` on a 2-D array is `writeRows`:
  rows are written in order, a negative index in `[-n, 0)` wraps, and an
  index outside `[-n, n)` is an `IndexError`.
-/

namespace S1Etad

/-- `np.round` on a scalar: round to the nearest integer, ties to even
(banker's rounding), as used by `np.round(...).astype(np.int)` in
`_burst_merger`. -/
def npRound (q : ℚ) : ℤ :=
  if q - (⌊q⌋ : ℚ) < 1/2 then ⌊q⌋
  else if 1/2 < q - (⌊q⌋ : ℚ) then ⌊q⌋ + 1
  else if ⌊q⌋ % 2 = 0 then ⌊q⌋ else ⌊q⌋ + 1

/-- `scipy.constants.c`, exact value of the float `299792458.0`. -/
def speed_of_light : ℚ := 299792458

/-- Python `str.endswith`, used by `_get_etad_param` to decide whether a
variable is an azimuth-axis correction. -/
def strEndsWith (s suf : String) : Bool :=
  suf.data == s.data.drop (s.data.length - suf.data.length)

/-- One netCDF burst group, as wrapped by `Sentinel1EtadBurst`:
`bIndex`, the two `gridSampling*` attributes, `gridStartRangeTime0`, the
swath's azimuth grid spacing in meters (`daz_m`, handed down by
`Sentinel1EtadSwath`), the 1-D `azimuth` grid variable, and the other
stored variables (2-D arrays in stored orientation, `none` when the
variable does not exist in the group). -/
structure Burst where
  bIndex : ℤ
  samplingX : ℚ
  samplingY : ℚ
  gridStartRangeTime0 : ℚ
  daz_m : ℚ
  azimuth : List ℚ
  vars : String → Option (List (List ℚ))

/-- `Sentinel1EtadBurst._get_etad_param`: read a stored variable,
optionally transpose it to (lines × samples) orientation, and when
`meter` is set scale azimuth-axis corrections (variable name ending in
`"Az"`) by `daz_m / sampling['y']` and every other variable by
`speed_of_light / 2`.  `none` models the `AssertionError` on a variable
name that is not in the group. -/
def getEtadParam (b : Burst) (correction : String) (transpose meter : Bool) :
    Option (List (List ℚ)) :=
  match b.vars correction with
  | none => none
  | some field0 =>
    let field1 := if transpose then field0.transpose else field0
    if meter then
      let k : ℚ :=
        if strEndsWith correction "Az" then b.daz_m / b.samplingY
        else speed_of_light / 2
      some (field1.map (fun row => row.map (fun v => v * k)))
    else
      some field1

/-- The result record of a correction retrieval: up to two named grids,
a unit tag and a name tag. -/
structure CorrectionRecord where
  x : Option (List (List ℚ))
  y : Option (List (List ℚ))
  unit : String
  name : String

/-- `Sentinel1EtadBurst._core_get_correction`: fetch the variables of the
requested axes and tag the unit `'m'` or `'s'` according to `meter`. -/
def coreGetCorrection (b : Burst) (prmx prmy : Option String)
    (transpose meter : Bool) : Option CorrectionRecord :=
  match (match prmx with
         | none => some none
         | some nm => (getEtadParam b nm transpose meter).map some),
        (match prmy with
         | none => some none
         | some nm => (getEtadParam b nm transpose meter).map some) with
  | some x, some y =>
      some { x := x, y := y, unit := if meter then "m" else "s", name := "" }
  | _, _ => none

/-- `get_tropospheric_correction`. -/
def get_tropospheric_correction (b : Burst) (transpose meter : Bool) :
    Option CorrectionRecord :=
  (coreGetCorrection b (some "troposphericCorrectionRg") none transpose
    meter).map (fun c => { c with name := "tropospheric" })

/-- `get_ionospheric_correction`. -/
def get_ionospheric_correction (b : Burst) (transpose meter : Bool) :
    Option CorrectionRecord :=
  (coreGetCorrection b (some "ionosphericCorrectionRg") none transpose
    meter).map (fun c => { c with name := "ionospheric" })

/-- `get_geodetic_correction`. -/
def get_geodetic_correction (b : Burst) (transpose meter : Bool) :
    Option CorrectionRecord :=
  (coreGetCorrection b (some "geodeticCorrectionRg")
    (some "geodeticCorrectionAz") transpose meter).map
    (fun c => { c with name := "geodetic" })

/-- `get_bistatic_correction`. -/
def get_bistatic_correction (b : Burst) (transpose meter : Bool) :
    Option CorrectionRecord :=
  (coreGetCorrection b none (some "bistaticCorrectionAz") transpose
    meter).map (fun c => { c with name := "bistatic" })

/-- `get_doppler_correction`. -/
def get_doppler_correction (b : Burst) (transpose meter : Bool) :
    Option CorrectionRecord :=
  (coreGetCorrection b (some "dopplerRangeShiftRg") none transpose
    meter).map (fun c => { c with name := "Doppler" })

/-- `get_fmrate_correction`. -/
def get_fmrate_correction (b : Burst) (transpose meter : Bool) :
    Option CorrectionRecord :=
  (coreGetCorrection b none (some "fmMismatchCorrectionAz") transpose
    meter).map (fun c => { c with name := "FM rate" })

/-- `get_sum_correction`. -/
def get_sum_correction (b : Burst) (transpose meter : Bool) :
    Option CorrectionRecord :=
  (coreGetCorrection b (some "sumOfCorrectionsRg")
    (some "sumOfCorrectionsAz") transpose meter).map
    (fun c => { c with name := "Sum" })

/-- The error of `Sentinel1EtadBurst.get_correction` on a name for which
no `get_<name>_correction` method exists (a `ValueError` in the code,
`UnknownCorrection` in the design taxonomy). -/
inductive CorrectionError
  | unknownCorrection
  deriving DecidableEq

/-- The seven correction names accepted by `get_correction`. -/
def correctionNames : List String :=
  ["sum", "ionospheric", "tropospheric", "geodetic",
   "bistatic", "doppler", "fmrate"]

/-- `Sentinel1EtadBurst.get_correction`: dynamic dispatch on
`get_{name}_correction` — exactly the seven defined retriever methods
resolve; any other name raises. -/
def get_correction (b : Burst) (name : String) (transpose meter : Bool) :
    Except CorrectionError (Option CorrectionRecord) :=
  if name = "tropospheric" then
    .ok (get_tropospheric_correction b transpose meter)
  else if name = "ionospheric" then
    .ok (get_ionospheric_correction b transpose meter)
  else if name = "geodetic" then
    .ok (get_geodetic_correction b transpose meter)
  else if name = "bistatic" then
    .ok (get_bistatic_correction b transpose meter)
  else if name = "doppler" then
    .ok (get_doppler_correction b transpose meter)
  else if name = "fmrate" then
    .ok (get_fmrate_correction b transpose meter)
  else if name = "sum" then
    .ok (get_sum_correction b transpose meter)
  else .error .unknownCorrection

/-- One netCDF swath group, as wrapped by `Sentinel1EtadSwath`: its burst
groups and the size of the `rangeExtent` dimension. -/
structure Swath where
  bursts : List Burst
  rangeExtent : ℕ

/-- `Sentinel1EtadSwath.__getitem__`: the burst group with the given
burst index. -/
def Swath.getBurst (sw : Swath) (i : ℤ) : Option Burst :=
  sw.bursts.find? (fun b => b.bIndex == i)

/-- `Sentinel1EtadSwath.burst_list`: all burst indices of the swath, in
group order. -/
def Swath.burst_list (sw : Swath) : List ℤ :=
  sw.bursts.map (fun b => b.bIndex)

/-- The failures `_burst_merger` can raise, in the names of the design
taxonomy (`emptySelection` is the `IndexError` of `burst_index_list[0]`
on an empty list, `inconsistentSampling` the two asserts in the write
loop, `indexOutOfRange` the numpy `IndexError` of an out-of-bounds row
write, and so on). -/
inductive MergeError
  | emptySelection
  | unknownBurst
  | emptyAzimuthGrid
  | negativeDimensions
  | inconsistentSampling
  | missingVariable
  | shapeMismatch
  | indexOutOfRange
  deriving DecidableEq

/-- The dictionary returned by `_burst_merger`: merged raster, relative
first azimuth time, shared two-way range start time, and the first
burst's sampling record. -/
structure MergeResult where
  data : List (List ℚ)
  first_azimuth_time : ℚ
  first_slant_range_time : ℚ
  samplingX : ℚ
  samplingY : ℚ
  deriving DecidableEq

/-- numpy row assignment `m[i, :] = row` for an integer index on a 2-D
array of `m.length` rows: indices in `[0, n)` address directly, indices
in `[-n, 0)` wrap, anything else is an `IndexError` (`none`). -/
def setRow (m : List (List ℚ)) (i : ℤ) (row : List ℚ) :
    Option (List (List ℚ)) :=
  if 0 ≤ i ∧ i < (m.length : ℤ) then some (m.set i.toNat row)
  else if 0 ≤ i + (m.length : ℤ) ∧ i < 0 then
    some (m.set (i + (m.length : ℤ)).toNat row)
  else none

/-- The fancy-index assignment `m[line_index, :] = var`: the rows are
written in order, each paired with its target line index. -/
def writeRows (m : List (List ℚ)) : List (ℤ × List ℚ) →
    Option (List (List ℚ))
  | [] => some m
  | p :: ps =>
    match setRow m p.1 p.2 with
    | none => none
    | some m2 => writeRows m2 ps

/-- `num_lines = np.round((t1 - t0) / dt).astype(np.int) + 1`. -/
def numLines (t0 t1 dt : ℚ) : ℤ :=
  npRound ((t1 - t0) / dt) + 1

/-- `np.zeros((num_lines, num_samples))`. -/
def zerosMat (r c : ℕ) : List (List ℚ) :=
  List.replicate r (List.replicate c 0)

/-- `t0`: the caller's `azimuthTimeMin` override, else the first azimuth
sample of the first selected burst (`IndexError`, i.e. `none`, on an
empty azimuth grid). -/
def resolveT0 (override : Option ℚ) (b : Burst) : Option ℚ :=
  match override with
  | some t => some t
  | none => b.azimuth.head?

/-- `t1`: the caller's `azimuthTimeMax` override, else the last azimuth
sample of the last selected burst. -/
def resolveT1 (override : Option ℚ) (b : Burst) : Option ℚ :=
  match override with
  | some t => some t
  | none => b.azimuth.getLast?

/-- The (line index, row) write list contributed by one burst of the
write loop: each azimuth sample's absolute line index
`np.round((az - t0) / dt)` paired with the corresponding row of the
burst's variable.  Empty in the branches in which the loop body would
have raised before reaching the write. -/
def burstWrites (sw : Swath) (burst_var : String) (t0 dt : ℚ)
    (transpose meter : Bool) (i : ℤ) : List (ℤ × List ℚ) :=
  match sw.getBurst i with
  | none => []
  | some burst_ =>
    match getEtadParam burst_ burst_var transpose meter with
    | none => []
    | some var_ =>
      (burst_.azimuth.map (fun t => npRound ((t - t0) / dt))).zip var_

/-- The write lists of all selected bursts, concatenated in the order of
`burst_index_list`. -/
def allWrites (sw : Swath) (burst_var : String) (t0 dt : ℚ)
    (transpose meter : Bool) (l : List ℤ) : List (ℤ × List ℚ) :=
  (l.map (burstWrites sw burst_var t0 dt transpose meter)).flatten

/-- One iteration of the write loop of `_burst_merger`: look the burst
up, assert its azimuth sampling and `gridStartRangeTime0` against the
first burst's, compute the line indices of its azimuth grid, fetch the
variable and write its rows into the accumulator. -/
def mergeStep (sw : Swath) (burst_var : String) (t0 dt g0 : ℚ)
    (transpose meter : Bool) (acc : List (List ℚ)) (burst_index : ℤ) :
    Except MergeError (List (List ℚ)) :=
  match sw.getBurst burst_index with
  | none => .error .unknownBurst
  | some burst_ =>
    if burst_.samplingY ≠ dt then .error .inconsistentSampling
    else if burst_.gridStartRangeTime0 ≠ g0 then .error .inconsistentSampling
    else
      match getEtadParam burst_ burst_var transpose meter with
      | none => .error .missingVariable
      | some var_ =>
        if var_.length ≠ burst_.azimuth.length then .error .shapeMismatch
        else if var_.any (fun row => row.length ≠ sw.rangeExtent) then
          .error .shapeMismatch
        else
          match writeRows acc
              ((burst_.azimuth.map (fun t => npRound ((t - t0) / dt))).zip
                var_) with
          | none => .error .indexOutOfRange
          | some acc2 => .ok acc2

/-- The write loop of `_burst_merger` over the selected burst indices, in
the order of the caller's list. -/
def mergeLoop (sw : Swath) (burst_var : String) (t0 dt g0 : ℚ)
    (transpose meter : Bool) : List (List ℚ) → List ℤ →
    Except MergeError (List (List ℚ))
  | acc, [] => .ok acc
  | acc, i :: rest =>
    match mergeStep sw burst_var t0 dt g0 transpose meter acc i with
    | .error e => .error e
    | .ok acc2 => mergeLoop sw burst_var t0 dt g0 transpose meter acc2 rest

/-- `Sentinel1EtadSwath._burst_merger`: resolve the selection (the whole
swath when `burst_index_list0` is `none`), derive the merge window from
the first/last selected bursts (or the caller's overrides), allocate the
zero raster and run the write loop, returning the merged raster with its
georeferencing record. -/
def burstMerger (sw : Swath) (burst_var : String)
    (burst_index_list0 : Option (List ℤ))
    (azimuthTimeMin azimuthTimeMax : Option ℚ) (transpose meter : Bool) :
    Except MergeError MergeResult :=
  let burst_index_list := burst_index_list0.getD sw.burst_list
  match burst_index_list.head?, burst_index_list.getLast? with
  | none, _ => .error .emptySelection
  | some _, none => .error .emptySelection
  | some i0, some iN =>
    match sw.getBurst i0, sw.getBurst iN with
    | none, _ => .error .unknownBurst
    | some _, none => .error .unknownBurst
    | some first_burst, some last_burst =>
      match resolveT0 azimuthTimeMin first_burst,
            resolveT1 azimuthTimeMax last_burst with
      | none, _ => .error .emptyAzimuthGrid
      | some _, none => .error .emptyAzimuthGrid
      | some t0, some t1 =>
        let dt := first_burst.samplingY
        if numLines t0 t1 dt < 0 then .error .negativeDimensions
        else
          match mergeLoop sw burst_var t0 dt first_burst.gridStartRangeTime0
              transpose meter (zerosMat (numLines t0 t1 dt).toNat
                sw.rangeExtent) burst_index_list with
          | .error e => .error e
          | .ok data =>
            .ok { data := data
                  first_azimuth_time := t0
                  first_slant_range_time := first_burst.gridStartRangeTime0
                  samplingX := first_burst.samplingX
                  samplingY := first_burst.samplingY }

/-- One row of the burst catalogue built by `_init_burst_catalogue`. -/
structure BurstRecord where
  pIndex : ℤ
  sIndex : ℤ
  bIndex : ℤ
  productID : String
  swathID : String
  azimuthTimeMin : ℚ
  azimuthTimeMax : ℚ
  deriving DecidableEq

/-- The sort key of `df.sort_values(by=['azimuthTimeMin'])`. -/
def byAzMin (a b : BurstRecord) : Prop :=
  a.azimuthTimeMin ≤ b.azimuthTimeMin

instance : DecidableRel byAzMin :=
  fun a b => inferInstanceAs (Decidable (a.azimuthTimeMin ≤ b.azimuthTimeMin))

instance : IsTotal BurstRecord byAzMin :=
  ⟨fun a b => le_total a.azimuthTimeMin b.azimuthTimeMin⟩

instance : IsTrans BurstRecord byAzMin :=
  ⟨fun _ _ _ hab hbc => le_trans hab hbc⟩

/-- `self.burst_catalogue.sort_values(by=['azimuthTimeMin'])`. -/
def sortByAzMin (cat : List BurstRecord) : List BurstRecord :=
  cat.insertionSort byAzMin

/-- `Sentinel1Etad.query_burst`.  The product-name filter (a regex on
`productID` derived from `Sentinel1ProductName`) enters only through the
boolean predicate it induces on `productID`, passed here as
`product_filter`; the swath filter is the `isin` membership test.
`none` models the `IndexError` of `df.iloc[0]` when a default time is
requested on an empty catalogue. -/
def query_burst (cat : List BurstRecord) (first_time last_time : Option ℚ)
    (product_filter : Option (String → Bool))
    (swath : Option (List String)) : Option (List BurstRecord) :=
  let df := sortByAzMin cat
  match (match first_time with
         | some t => some t
         | none => df.head?.map (fun r => r.azimuthTimeMin)),
        (match last_time with
         | some t => some t
         | none => df.getLast?.map (fun r => r.azimuthTimeMax)) with
  | some ft, some lt =>
    some (df.filter (fun r =>
      decide (ft ≤ r.azimuthTimeMin) && decide (r.azimuthTimeMax ≤ lt) &&
      (match product_filter with
       | none => true
       | some f => f r.productID) &&
      (match swath with
       | none => true
       | some ws => ws.contains r.swathID)))
  | _, _ => none

/-! ### Properties of the scalar rounding -/

theorem npRound_intCast (k : ℤ) : npRound (k : ℚ) = k := by
  unfold npRound
  rw [Int.floor_intCast]
  norm_num

theorem floor_le_npRound (q : ℚ) : ⌊q⌋ ≤ npRound q := by
  unfold npRound
  split_ifs <;> omega

theorem le_npRound_of_le (k : ℤ) (q : ℚ) (h : (k : ℚ) ≤ q) :
    k ≤ npRound q :=
  le_trans (Int.le_floor.mpr h) (floor_le_npRound q)

/-! ### Properties of numpy row assignment -/

theorem setRow_length {m : List (List ℚ)} {i : ℤ} {row : List ℚ}
    {m' : List (List ℚ)} (h : setRow m i row = some m') :
    m'.length = m.length := by
  unfold setRow at h
  split_ifs at h
  · cases h; simp
  · cases h; simp

theorem setRow_of_nonneg {m : List (List ℚ)} {i : ℤ} {row : List ℚ}
    {m' : List (List ℚ)} (hi : 0 ≤ i) (h : setRow m i row = some m') :
    i < (m.length : ℤ) ∧ m' = m.set i.toNat row := by
  unfold setRow at h
  split_ifs at h with h1 h2
  · exact ⟨h1.2, (Option.some.injEq _ _ ▸ h).symm⟩
  · exact absurd h2.2 (not_lt.mpr hi)

theorem setRow_mem {m : List (List ℚ)} {i : ℤ} {row : List ℚ}
    {m' : List (List ℚ)} (h : setRow m i row = some m') :
    ∀ q ∈ m', q ∈ m ∨ q = row := by
  unfold setRow at h
  split_ifs at h <;> simp_all <;>
    exact fun q hq => List.mem_or_eq_of_mem_set (h ▸ hq)

theorem writeRows_length : ∀ {ps : List (ℤ × List ℚ)}
    {m m' : List (List ℚ)}, writeRows m ps = some m' →
    m'.length = m.length
  | [], _, _, h => by
    simp [writeRows] at h
    simp [h]
  | p :: ps, m, m', h => by
    rw [writeRows] at h
    cases hs : setRow m p.1 p.2 with
    | none => rw [hs] at h; exact absurd h (by simp)
    | some m2 =>
      rw [hs] at h
      exact (writeRows_length h).trans (setRow_length hs)

theorem writeRows_mem : ∀ {ps : List (ℤ × List ℚ)}
    {m m' : List (List ℚ)}, writeRows m ps = some m' →
    ∀ q ∈ m', q ∈ m ∨ ∃ p ∈ ps, q = p.2
  | [], _, _, h => by
    simp [writeRows] at h
    simp [h]
  | p :: ps, m, m', h => by
    rw [writeRows] at h
    cases hs : setRow m p.1 p.2 with
    | none => rw [hs] at h; exact absurd h (by simp)
    | some m2 =>
      rw [hs] at h
      intro q hq
      rcases writeRows_mem h q hq with h2 | ⟨p', hp', he⟩
      · rcases setRow_mem hs q h2 with h3 | h3
        · exact Or.inl h3
        · exact Or.inr ⟨p, List.mem_cons_self _ _, h3⟩
      · exact Or.inr ⟨p', List.mem_cons_of_mem _ hp', he⟩

theorem writeRows_append (ps qs : List (ℤ × List ℚ)) :
    ∀ m : List (List ℚ), writeRows m (ps ++ qs) =
      match writeRows m ps with
      | none => none
      | some m2 => writeRows m2 qs := by
  induction ps with
  | nil => intro m; simp [writeRows]
  | cons p ps ih =>
    intro m
    rw [List.cons_append, writeRows, writeRows]
    cases hs : setRow m p.1 p.2 with
    | none => rfl
    | some m2 => exact ih m2

/-- After a sequence of row writes at nonnegative indices, a row of the
result is the last row written at that index, or the original row if the
index was never written. -/
theorem writeRows_getElem? : ∀ {ps : List (ℤ × List ℚ)}
    {m m' : List (List ℚ)}, writeRows m ps = some m' →
    (∀ p ∈ ps, 0 ≤ p.1) → ∀ r : ℕ,
    m'[r]? = match ps.reverse.find? (fun p => p.1 == (r : ℤ)) with
      | some p => some p.2
      | none => m[r]?
  | [], m, m', h, _, r => by
    simp [writeRows] at h
    simp [h]
  | p :: ps, m, m', h, hnn, r => by
    rw [writeRows] at h
    cases hs : setRow m p.1 p.2 with
    | none => rw [hs] at h; exact absurd h (by simp)
    | some m2 =>
      rw [hs] at h
      have hp1 : (0 : ℤ) ≤ p.1 := hnn p (List.mem_cons_self _ _)
      obtain ⟨hlt, hm2⟩ := setRow_of_nonneg hp1 hs
      rw [List.reverse_cons, List.find?_append]
      cases hf : ps.reverse.find? (fun q => q.1 == (r : ℤ)) with
      | some q =>
        have ih : m'[r]? = some q.2 := by
          simpa [hf] using writeRows_getElem? h
            (fun q hq => hnn q (List.mem_cons_of_mem _ hq)) r
        simpa [Option.or] using ih
      | none =>
        have ih : m'[r]? = m2[r]? := by
          simpa [hf] using writeRows_getElem? h
            (fun q hq => hnn q (List.mem_cons_of_mem _ hq)) r
        by_cases hpr : p.1 = (r : ℤ)
        · have hrn : p.1.toNat = r := by omega
          have hrlt : r < m.length := by omega
          rw [ih, hm2, hrn]
          simp [Option.or, List.find?, hpr, List.getElem?_set_self hrlt]
        · have hne : p.1.toNat ≠ r := by omega
          have hb : (p.1 == (r : ℤ)) = false := by simpa using hpr
          rw [ih, hm2]
          simp [Option.or, List.find?, hb, List.getElem?_set_ne hne]

/-! ### Inversion of the write loop -/

theorem mergeStep_ok {sw : Swath} {burst_var : String} {t0 dt g0 : ℚ}
    {transpose meter : Bool} {acc : List (List ℚ)} {i : ℤ}
    {acc2 : List (List ℚ)}
    (h : mergeStep sw burst_var t0 dt g0 transpose meter acc i = .ok acc2) :
    ∃ b var_, sw.getBurst i = some b ∧ b.samplingY = dt ∧
      b.gridStartRangeTime0 = g0 ∧
      getEtadParam b burst_var transpose meter = some var_ ∧
      var_.length = b.azimuth.length ∧
      (∀ row ∈ var_, row.length = sw.rangeExtent) ∧
      writeRows acc ((b.azimuth.map (fun t => npRound ((t - t0) / dt))).zip
        var_) = some acc2 := by
  rw [mergeStep] at h
  cases hb : sw.getBurst i with
  | none => rw [hb] at h; exact absurd h (by simp)
  | some b =>
    rw [hb] at h
    dsimp only at h
    split_ifs at h with hdt hg0
    cases hv : getEtadParam b burst_var transpose meter with
    | none => rw [hv] at h; exact absurd h (by simp)
    | some var_ =>
      rw [hv] at h
      dsimp only at h
      split_ifs at h with hlen hwide
      cases hw : writeRows acc
          ((b.azimuth.map (fun t => npRound ((t - t0) / dt))).zip var_) with
      | none => rw [hw] at h; exact absurd h (by simp)
      | some acc3 =>
        rw [hw] at h
        dsimp only at h
        cases h
        refine ⟨b, var_, rfl, not_ne_iff.mp hdt, not_ne_iff.mp hg0, hv,
          not_ne_iff.mp hlen, fun row hrow => ?_, hw⟩
        have hf : (var_.any fun row =>
            decide (row.length ≠ sw.rangeExtent)) = false :=
          Bool.eq_false_iff.mpr hwide
        simpa using List.any_eq_false.mp hf row hrow

theorem mergeStep_inconsistent {sw : Swath} {burst_var : String}
    {t0 dt g0 : ℚ} {transpose meter : Bool} {acc : List (List ℚ)} {i : ℤ}
    {b : Burst} (hb : sw.getBurst i = some b)
    (hbad : b.samplingY ≠ dt ∨ b.gridStartRangeTime0 ≠ g0) :
    mergeStep sw burst_var t0 dt g0 transpose meter acc i =
      .error .inconsistentSampling := by
  rw [mergeStep, hb]
  dsimp only
  rcases hbad with hbad | hbad
  · rw [if_pos hbad]
  · by_cases hdt : b.samplingY ≠ dt
    · rw [if_pos hdt]
    · rw [if_neg hdt, if_pos hbad]

theorem mergeStep_ne_inconsistent {sw : Swath} {burst_var : String}
    {t0 dt g0 : ℚ} {transpose meter : Bool} {acc : List (List ℚ)} {i : ℤ}
    (hok : ∀ b, sw.getBurst i = some b →
      b.samplingY = dt ∧ b.gridStartRangeTime0 = g0) :
    mergeStep sw burst_var t0 dt g0 transpose meter acc i ≠
      .error .inconsistentSampling := by
  cases hb : sw.getBurst i with
  | none => rw [mergeStep, hb]; simp
  | some b =>
    obtain ⟨h1, h2⟩ := hok b hb
    rw [mergeStep, hb]
    dsimp only
    rw [if_neg (by simp [h1]), if_neg (by simp [h2])]
    cases hv : getEtadParam b burst_var transpose meter with
    | none => simp
    | some var_ =>
      dsimp only
      split_ifs
      · simp
      · simp
      · cases hw : writeRows acc
            ((b.azimuth.map (fun t => npRound ((t - t0) / dt))).zip
              var_) <;> simp

theorem mergeLoop_ok_writes {sw : Swath} {burst_var : String}
    {t0 dt g0 : ℚ} {transpose meter : Bool} :
    ∀ {l : List ℤ} {acc d : List (List ℚ)},
    mergeLoop sw burst_var t0 dt g0 transpose meter acc l = .ok d →
    writeRows acc (allWrites sw burst_var t0 dt transpose meter l) = some d
  | [], acc, d, h => by
    rw [mergeLoop] at h
    cases h
    simp [allWrites, writeRows]
  | i :: rest, acc, d, h => by
    rw [mergeLoop] at h
    cases hs : mergeStep sw burst_var t0 dt g0 transpose meter acc i with
    | error e => rw [hs] at h; exact absurd h (by simp)
    | ok acc2 =>
      rw [hs] at h
      obtain ⟨b, var_, hb, _, _, hv, _, _, hw⟩ := mergeStep_ok hs
      have hbw : burstWrites sw burst_var t0 dt transpose meter i =
          (b.azimuth.map (fun t => npRound ((t - t0) / dt))).zip var_ := by
        rw [burstWrites, hb]
        dsimp only
        rw [hv]
      have hall : allWrites sw burst_var t0 dt transpose meter (i :: rest) =
          burstWrites sw burst_var t0 dt transpose meter i ++
            allWrites sw burst_var t0 dt transpose meter rest := by
        simp [allWrites]
      rw [hall, writeRows_append, hbw, hw]
      exact mergeLoop_ok_writes h

theorem mergeLoop_ok_consistent {sw : Swath} {burst_var : String}
    {t0 dt g0 : ℚ} {transpose meter : Bool} :
    ∀ {l : List ℤ} {acc d : List (List ℚ)},
    mergeLoop sw burst_var t0 dt g0 transpose meter acc l = .ok d →
    ∀ i ∈ l, ∃ b, sw.getBurst i = some b ∧ b.samplingY = dt ∧
      b.gridStartRangeTime0 = g0
  | [], _, _, _, i, hi => absurd hi (List.not_mem_nil i)
  | j :: rest, acc, d, h, i, hi => by
    rw [mergeLoop] at h
    cases hs : mergeStep sw burst_var t0 dt g0 transpose meter acc j with
    | error e => rw [hs] at h; exact absurd h (by simp)
    | ok acc2 =>
      rw [hs] at h
      rcases List.mem_cons.mp hi with rfl | hi2
      · obtain ⟨b, var_, hb, h1, h2, _⟩ := mergeStep_ok hs
        exact ⟨b, hb, h1, h2⟩
      · exact mergeLoop_ok_consistent h i hi2

theorem mergeLoop_ne_inconsistent {sw : Swath} {burst_var : String}
    {t0 dt g0 : ℚ} {transpose meter : Bool} :
    ∀ {l : List ℤ} {acc : List (List ℚ)},
    (∀ i ∈ l, ∀ b, sw.getBurst i = some b →
      b.samplingY = dt ∧ b.gridStartRangeTime0 = g0) →
    mergeLoop sw burst_var t0 dt g0 transpose meter acc l ≠
      .error .inconsistentSampling
  | [], acc, _ => by rw [mergeLoop]; simp
  | i :: rest, acc, hok => by
    rw [mergeLoop]
    cases hs : mergeStep sw burst_var t0 dt g0 transpose meter acc i with
    | error e =>
      have hne := @mergeStep_ne_inconsistent sw burst_var t0 dt g0
        transpose meter acc i
        (fun b hb => hok i (List.mem_cons_self _ _) b hb)
      rw [hs] at hne
      simpa using fun he => hne (by rw [he])
    | ok acc2 =>
      exact mergeLoop_ne_inconsistent
        (fun j hj b hb => hok j (List.mem_cons_of_mem _ hj) b hb)

theorem mergeLoop_append {sw : Swath} {burst_var : String} {t0 dt g0 : ℚ}
    {transpose meter : Bool} :
    ∀ (l1 l2 : List ℤ) (acc : List (List ℚ)),
    mergeLoop sw burst_var t0 dt g0 transpose meter acc (l1 ++ l2) =
      match mergeLoop sw burst_var t0 dt g0 transpose meter acc l1 with
      | .error e => .error e
      | .ok acc2 => mergeLoop sw burst_var t0 dt g0 transpose meter acc2 l2
  | [], l2, acc => by rw [List.nil_append, mergeLoop]
  | i :: rest, l2, acc => by
    rw [List.cons_append, mergeLoop, mergeLoop]
    cases hs : mergeStep sw burst_var t0 dt g0 transpose meter acc i with
    | error e => rfl
    | ok acc2 => exact mergeLoop_append rest l2 acc2

theorem mergeLoop_ok_length {sw : Swath} {burst_var : String}
    {t0 dt g0 : ℚ} {transpose meter : Bool} :
    ∀ {l : List ℤ} {acc d : List (List ℚ)},
    mergeLoop sw burst_var t0 dt g0 transpose meter acc l = .ok d →
    d.length = acc.length
  | [], acc, d, h => by rw [mergeLoop] at h; cases h; rfl
  | i :: rest, acc, d, h => by
    rw [mergeLoop] at h
    cases hs : mergeStep sw burst_var t0 dt g0 transpose meter acc i with
    | error e => rw [hs] at h; exact absurd h (by simp)
    | ok acc2 =>
      rw [hs] at h
      obtain ⟨b, var_, _, _, _, _, _, _, hw⟩ := mergeStep_ok hs
      exact (mergeLoop_ok_length h).trans (writeRows_length hw)

theorem mergeLoop_ok_width {sw : Swath} {burst_var : String}
    {t0 dt g0 : ℚ} {transpose meter : Bool} :
    ∀ {l : List ℤ} {acc d : List (List ℚ)},
    mergeLoop sw burst_var t0 dt g0 transpose meter acc l = .ok d →
    (∀ row ∈ acc, row.length = sw.rangeExtent) →
    ∀ row ∈ d, row.length = sw.rangeExtent
  | [], acc, d, h, hacc => by rw [mergeLoop] at h; cases h; exact hacc
  | i :: rest, acc, d, h, hacc => by
    rw [mergeLoop] at h
    cases hs : mergeStep sw burst_var t0 dt g0 transpose meter acc i with
    | error e => rw [hs] at h; exact absurd h (by simp)
    | ok acc2 =>
      rw [hs] at h
      obtain ⟨b, var_, _, _, _, _, _, hwide, hw⟩ := mergeStep_ok hs
      refine mergeLoop_ok_width h (fun row hrow => ?_)
      rcases writeRows_mem hw row hrow with h2 | ⟨p, hp, rfl⟩
      · exact hacc row h2
      · exact hwide p.2
          (List.of_mem_zip (show (p.1, p.2) ∈ _ by simpa using hp)).2

/-- Inversion of a successful merge: the selection was non-empty, the
first/last bursts resolved, the merge window resolved, the allocation was
non-negative, and the write loop succeeded on the zero raster. -/
theorem burstMerger_ok {sw : Swath} {burst_var : String}
    {l0 : Option (List ℤ)} {am amx : Option ℚ} {transpose meter : Bool}
    {res : MergeResult}
    (h : burstMerger sw burst_var l0 am amx transpose meter = .ok res) :
    ∃ i0 iN fb lb t0 t1,
      (l0.getD sw.burst_list).head? = some i0 ∧
      (l0.getD sw.burst_list).getLast? = some iN ∧
      sw.getBurst i0 = some fb ∧ sw.getBurst iN = some lb ∧
      resolveT0 am fb = some t0 ∧ resolveT1 amx lb = some t1 ∧
      0 ≤ numLines t0 t1 fb.samplingY ∧
      mergeLoop sw burst_var t0 fb.samplingY fb.gridStartRangeTime0
        transpose meter
        (zerosMat (numLines t0 t1 fb.samplingY).toNat sw.rangeExtent)
        (l0.getD sw.burst_list) = .ok res.data ∧
      res.first_azimuth_time = t0 ∧
      res.first_slant_range_time = fb.gridStartRangeTime0 ∧
      res.samplingX = fb.samplingX ∧ res.samplingY = fb.samplingY := by
  rw [burstMerger] at h
  dsimp only at h
  cases h0 : (l0.getD sw.burst_list).head? with
  | none => rw [h0] at h; exact absurd h (by simp)
  | some i0 =>
  rw [h0] at h
  cases hN : (l0.getD sw.burst_list).getLast? with
  | none => rw [hN] at h; exact absurd h (by simp)
  | some iN =>
  rw [hN] at h
  dsimp only at h
  cases hfb : sw.getBurst i0 with
  | none => rw [hfb] at h; exact absurd h (by simp)
  | some fb =>
  rw [hfb] at h
  cases hlb : sw.getBurst iN with
  | none => rw [hlb] at h; exact absurd h (by simp)
  | some lb =>
  rw [hlb] at h
  dsimp only at h
  cases ht0 : resolveT0 am fb with
  | none => rw [ht0] at h; exact absurd h (by simp)
  | some t0 =>
  rw [ht0] at h
  cases ht1 : resolveT1 amx lb with
  | none => rw [ht1] at h; exact absurd h (by simp)
  | some t1 =>
  rw [ht1] at h
  dsimp only at h
  split_ifs at h with hneg
  cases hloop : mergeLoop sw burst_var t0 fb.samplingY
      fb.gridStartRangeTime0 transpose meter
      (zerosMat (numLines t0 t1 fb.samplingY).toNat sw.rangeExtent)
      (l0.getD sw.burst_list) with
  | error e => rw [hloop] at h; exact absurd h (by simp)
  | ok data =>
  rw [hloop] at h
  dsimp only at h
  cases h
  exact ⟨i0, iN, fb, lb, t0, t1, rfl, rfl, hfb, hlb, ht0, ht1,
    not_lt.mp hneg, hloop, rfl, rfl, rfl, rfl⟩

/-! ### Evaluation lemmas for small concrete roundings -/

theorem npRound_zero : npRound 0 = 0 := by norm_num [npRound]

theorem npRound_one : npRound 1 = 1 := by norm_num [npRound]

theorem npRound_two : npRound 2 = 2 := by norm_num [npRound]

theorem npRound_three : npRound 3 = 3 := by norm_num [npRound]

theorem npRound_four : npRound 4 = 4 := by norm_num [npRound]

/-! ### Writing consecutive rows is a copy -/

theorem take_set_succ {α : Type} : ∀ (m : List α) (j : ℕ) (v : α),
    j < m.length → (m.set j v).take (j + 1) = m.take j ++ [v]
  | [], j, v, h => absurd h (by simp)
  | a :: tl, 0, v, _ => by simp
  | a :: tl, j + 1, v, h => by
    have ih := take_set_succ tl j v (by simpa using h)
    simp [List.set_cons_succ, List.take_succ_cons, ih]

theorem writeRows_id : ∀ (V m : List (List ℚ)) (j : ℕ),
    m.length = j + V.length →
    writeRows m (((List.range' j V.length).map Int.ofNat).zip V) =
      some (m.take j ++ V)
  | [], m, j, h => by
    have hle : m.length ≤ j := by simp at h; omega
    simp [writeRows, List.take_of_length_le hle]
  | v :: V', m, j, h => by
    have hj : j < m.length := by simp at h; omega
    have hstep : ((List.range' j (v :: V').length).map Int.ofNat).zip
          (v :: V') =
        (Int.ofNat j, v) ::
          ((List.range' (j + 1) V'.length).map Int.ofNat).zip V' := by
      rw [show (v :: V').length = V'.length + 1 from rfl,
        List.range'_succ j V'.length 1, List.map_cons, List.zip_cons_cons]
    rw [hstep, writeRows]
    have hset : setRow m (Int.ofNat j) v = some (m.set j v) := by
      unfold setRow
      rw [if_pos ⟨Int.natCast_nonneg j, Int.ofNat_lt.mpr hj⟩]
      simp
    rw [hset]
    dsimp only
    have ih := writeRows_id V' (m.set j v) (j + 1)
      (by simp at h ⊢; omega)
    rw [ih, take_set_succ m j v hj]
    simp

/-! ### Sorted-list helpers for the catalogue -/

theorem getLast?_mem {α : Type} {l : List α} {a : α}
    (h : l.getLast? = some a) : a ∈ l := by
  rw [List.getLast?_eq_getElem?] at h
  exact List.getElem?_mem h

theorem sorted_head?_le {l : List BurstRecord} {h0 : BurstRecord}
    (hs : l.Sorted byAzMin) (hh : l.head? = some h0) :
    ∀ r ∈ l, h0.azimuthTimeMin ≤ r.azimuthTimeMin := by
  cases l with
  | nil => simp at hh
  | cons a t =>
    cases hh
    intro r hr
    rcases List.mem_cons.mp hr with rfl | hr2
    · exact le_refl _
    · exact List.rel_of_sorted_cons hs r hr2

theorem sorted_le_getLast? : ∀ {l : List BurstRecord} {lastR : BurstRecord},
    l.Sorted byAzMin → l.getLast? = some lastR →
    ∀ r ∈ l, r.azimuthTimeMin ≤ lastR.azimuthTimeMin := by
  intro l
  induction l with
  | nil => intro lastR _ h; simp at h
  | cons a t ih =>
    intro lastR hs hl r hr
    cases t with
    | nil =>
      simp at hl hr
      cases hl
      cases hr
      exact le_refl _
    | cons b t2 =>
      rw [List.getLast?_cons_cons] at hl
      rcases List.mem_cons.mp hr with rfl | hr2
      · exact le_trans
          (List.rel_of_sorted_cons hs _ (getLast?_mem hl))
          (le_refl _)
      · exact ih ((List.sorted_cons.mp hs).2) hl r hr2

/-! ### Concrete fixtures used by witnesses and counterexamples -/

/-- A burst with index 1, unit sampling, azimuth grid `[0, 1, 2]` and a
constant 3×1 variable `"v"` of value 10. -/
def b1 : Burst :=
  { bIndex := 1, samplingX := 1, samplingY := 1, gridStartRangeTime0 := 0,
    daz_m := 14, azimuth := [0, 1, 2],
    vars := fun s => if s = "v" then some [[10], [10], [10]] else none }

/-- A burst with index 2 overlapping `b1` on one line (azimuth grid
`[2, 3, 4]`), constant value 20. -/
def b2 : Burst :=
  { bIndex := 2, samplingX := 1, samplingY := 1, gridStartRangeTime0 := 0,
    daz_m := 14, azimuth := [2, 3, 4],
    vars := fun s => if s = "v" then some [[20], [20], [20]] else none }

/-- A burst with index 2 fully overlapping `b1` (azimuth grid
`[0, 1, 2]`), constant value 20. -/
def b2full : Burst :=
  { bIndex := 2, samplingX := 1, samplingY := 1, gridStartRangeTime0 := 0,
    daz_m := 14, azimuth := [0, 1, 2],
    vars := fun s => if s = "v" then some [[20], [20], [20]] else none }

/-- A burst with index 2 whose azimuth sampling (2) disagrees with
`b1`'s (1). -/
def b2bad : Burst :=
  { bIndex := 2, samplingX := 1, samplingY := 2, gridStartRangeTime0 := 0,
    daz_m := 14, azimuth := [2, 3, 4],
    vars := fun s => if s = "v" then some [[20], [20], [20]] else none }

/-- Two overlapping bursts in ascending index order, one range sample. -/
def swAB : Swath := { bursts := [b1, b2], rangeExtent := 1 }

/-- Two fully overlapping bursts, one range sample. -/
def swFull : Swath := { bursts := [b1, b2full], rangeExtent := 1 }

/-- Two bursts with inconsistent azimuth sampling. -/
def swBad : Swath := { bursts := [b1, b2bad], rangeExtent := 1 }

/-- A burst for exercising unit conversion: azimuth sampling 3 s, azimuth
spacing 14 m, a range correction holding `1 / (c/2)` seconds and an
azimuth correction holding one azimuth-sampling interval. -/
def bC5 : Burst :=
  { bIndex := 1, samplingX := 1, samplingY := 3, gridStartRangeTime0 := 0,
    daz_m := 14, azimuth := [0],
    vars := fun s =>
      if s = "troposphericCorrectionRg" then some [[2 / speed_of_light]]
      else if s = "bistaticCorrectionAz" then some [[3]]
      else none }

/-! ### C5 -/

/-- C5: with `meter=True`, `_get_etad_param` multiplies an azimuth-axis
correction (variable name ending in `"Az"`) by
`daz_m / sampling['y']` and every range-axis correction by
`speed_of_light / 2`, and `_core_get_correction` tags the record `'m'`;
with `meter=False` the stored values are returned unscaled and the
record is tagged `'s'`. -/
theorem C5_meter_conversion (b : Burst) (nm : String) (tr : Bool)
    (M : List (List ℚ)) (h : getEtadParam b nm tr false = some M) :
    getEtadParam b nm tr true = some (M.map (fun row => row.map (fun v =>
      v * (if strEndsWith nm "Az" then b.daz_m / b.samplingY
           else speed_of_light / 2)))) ∧
    (∀ px py r, coreGetCorrection b px py tr true = some r →
      r.unit = "m") ∧
    (∀ px py r, coreGetCorrection b px py tr false = some r →
      r.unit = "s") := by
  refine ⟨?_, ?_, ?_⟩
  · cases hv : b.vars nm with
    | none => simp [getEtadParam, hv] at h
    | some f0 =>
      simp only [getEtadParam, hv, Bool.false_eq_true, if_false] at h
      cases h
      simp [getEtadParam, hv]
  · intro px py r hr
    rw [coreGetCorrection.eq_def] at hr
    split at hr
    · cases hr; rfl
    · exact absurd hr (by simp)
  · intro px py r hr
    rw [coreGetCorrection.eq_def] at hr
    split at hr
    · cases hr; rfl
    · exact absurd hr (by simp)

/-- Witness for C5: on a concrete burst a range correction of
`1/(c/2) = 2/c` seconds converts to exactly `1` meter, an azimuth
correction of one azimuth-sampling interval (3 s) converts to exactly
`daz_m = 14` meters, and the converted record is tagged `'m'`. -/
theorem C5_meter_conversion_witness :
    getEtadParam bC5 "troposphericCorrectionRg" false true = some [[1]] ∧
    getEtadParam bC5 "bistaticCorrectionAz" false true = some [[14]] ∧
    ∀ r, coreGetCorrection bC5 (some "troposphericCorrectionRg") none
      false true = some r → r.unit = "m" := by
  have h1 := C5_meter_conversion bC5 "troposphericCorrectionRg" false
    [[2 / speed_of_light]] (by simp [getEtadParam, bC5])
  have h2 := C5_meter_conversion bC5 "bistaticCorrectionAz" false
    [[3]] (by simp [getEtadParam, bC5])
  refine ⟨?_, ?_, fun r hr => h1.2.1 _ _ r hr⟩
  · rw [h1.1]
    have he : strEndsWith "troposphericCorrectionRg" "Az" = false := by
      decide
    rw [he]
    norm_num [speed_of_light]
  · rw [h2.1]
    have he2 : strEndsWith "bistaticCorrectionAz" "Az" = true := by decide
    rw [he2]
    norm_num [bC5]

/-! ### C8 -/

/-- C8: a merge requested over a selection of zero bursts (an explicitly
empty `burst_index_list`) fails with the empty-selection error — the
`IndexError` of `burst_index_list[0]` — and never returns a raster. -/
theorem C8_empty_selection_fails (sw : Swath) (burst_var : String)
    (am amx : Option ℚ) (transpose meter : Bool) :
    burstMerger sw burst_var (some []) am amx transpose meter =
      .error .emptySelection := rfl

/-! ### C9 -/

/-- C9: `get_correction` fails with `UnknownCorrection` exactly when the
requested name is not one of the seven correction kinds, and on each of
the seven kinds it dispatches to that kind's retriever. -/
theorem C9_get_correction_dispatch (b : Burst) (name : String)
    (transpose meter : Bool) :
    (get_correction b name transpose meter = .error .unknownCorrection ↔
      name ∉ correctionNames) ∧
    (name = "sum" → get_correction b name transpose meter =
      .ok (get_sum_correction b transpose meter)) ∧
    (name = "ionospheric" → get_correction b name transpose meter =
      .ok (get_ionospheric_correction b transpose meter)) ∧
    (name = "tropospheric" → get_correction b name transpose meter =
      .ok (get_tropospheric_correction b transpose meter)) ∧
    (name = "geodetic" → get_correction b name transpose meter =
      .ok (get_geodetic_correction b transpose meter)) ∧
    (name = "bistatic" → get_correction b name transpose meter =
      .ok (get_bistatic_correction b transpose meter)) ∧
    (name = "doppler" → get_correction b name transpose meter =
      .ok (get_doppler_correction b transpose meter)) ∧
    (name = "fmrate" → get_correction b name transpose meter =
      .ok (get_fmrate_correction b transpose meter)) := by
  refine ⟨?_, ?_, ?_, ?_, ?_, ?_, ?_, ?_⟩
  · unfold get_correction correctionNames
    split_ifs with h1 h2 h3 h4 h5 h6 h7 <;> simp_all
  all_goals (intro h; subst h; rfl)

/-- Witness for C9 at a concrete burst: the name `"azimuth"` is rejected
with `UnknownCorrection`, while `"sum"` dispatches to the sum
retriever. -/
theorem C9_get_correction_dispatch_witness :
    get_correction b1 "azimuth" true false = .error .unknownCorrection ∧
    get_correction b1 "sum" true false =
      .ok (get_sum_correction b1 true false) := by
  constructor
  · exact (C9_get_correction_dispatch b1 "azimuth" true false).1.mpr
      (by simp [correctionNames])
  · exact (C9_get_correction_dispatch b1 "sum" true false).2.1 rfl

/-! ### Catalogue fixtures -/

/-- A catalogue row with the earliest start but the latest end. -/
def rA : BurstRecord :=
  { pIndex := 1, sIndex := 1, bIndex := 1, productID := "P1",
    swathID := "IW1", azimuthTimeMin := 0, azimuthTimeMax := 100 }

/-- A catalogue row starting after `rA` but ending before it. -/
def rB : BurstRecord :=
  { pIndex := 1, sIndex := 2, bIndex := 2, productID := "P1",
    swathID := "IW2", azimuthTimeMin := 1, azimuthTimeMax := 50 }

/-- A two-row catalogue in which the row with the greatest
`azimuthTimeMin` does not have the greatest `azimuthTimeMax`. -/
def catW : List BurstRecord := [rA, rB]

/-! ### C7 -/

/-- C7: with explicit `first_time` and `last_time`, `query_burst` returns
exactly the catalogue rows fully contained in the interval
(`azimuthTimeMin >= first_time` and `azimuthTimeMax <= last_time`), with
the product-name and swath filters composed by logical AND, and an empty
result is an ordinary value, not an error. -/
theorem C7_query_filters_and (cat : List BurstRecord) (ft lt : ℚ)
    (pf : Option (String → Bool)) (sws : Option (List String)) :
    ∃ res, query_burst cat (some ft) (some lt) pf sws = some res ∧
      ∀ r, r ∈ res ↔ r ∈ cat ∧ ft ≤ r.azimuthTimeMin ∧
        r.azimuthTimeMax ≤ lt ∧
        (∀ f, pf = some f → f r.productID = true) ∧
        (∀ ws, sws = some ws → r.swathID ∈ ws) := by
  refine ⟨_, rfl, fun r => ?_⟩
  cases pf <;> cases sws <;>
    simp [List.mem_filter, sortByAzMin, List.mem_insertionSort,
      List.contains_eq_any_beq, List.any_eq_true, beq_iff_eq,
      and_assoc]

/-- Witness for C7: on the two-row catalogue the window `[1, 60]` keeps
`rB` (contained) and drops `rA` (starts too early). -/
theorem C7_query_filters_and_witness :
    ∃ res, query_burst catW (some 1) (some 60) none none = some res ∧
      rB ∈ res ∧ rA ∉ res := by
  obtain ⟨res, heq, hmem⟩ := C7_query_filters_and catW 1 60 none none
  refine ⟨res, heq, ?_, ?_⟩
  · exact (hmem rB).mpr ⟨by simp [catW], by norm_num [rB], by
      norm_num [rB], by simp, by simp⟩
  · intro hc
    obtain ⟨_, h1, _⟩ := (hmem rA).mp hc
    norm_num [rA] at h1

/-! ### C6 -/

/-- C6 counterexample: on a catalogue in which the latest-starting row is
not the latest-ending one, `query_burst` with no filters does not return
the full catalogue — `rA` (whose `azimuthTimeMax` is the true catalogue
maximum, 100) is dropped, because `last_time` is taken from the last row
of the sort by `azimuthTimeMin` (here `rB`, ending at 50), not from the
catalogue-wide maximum. -/
theorem C6_counterexample :
    query_burst catW none none none none = some [rB] ∧
    rA ∈ catW ∧ rA.azimuthTimeMax = 100 ∧
    (∀ r ∈ catW, r.azimuthTimeMax ≤ 100) ∧
    rA ∉ ([rB] : List BurstRecord) := by
  have hs : sortByAzMin catW = [rA, rB] := by
    norm_num [sortByAzMin, catW, List.insertionSort, List.orderedInsert,
      byAzMin, rA, rB]
  refine ⟨?_, by simp [catW], by norm_num [rA], ?_, ?_⟩
  · rw [query_burst.eq_def]
    simp only [hs]
    norm_num [rA, rB, List.filter]
  · intro r hr
    simp only [catW, List.mem_cons, List.not_mem_nil, or_false] at hr
    rcases hr with rfl | rfl
    · norm_num [rA]
    · norm_num [rB]
  · intro hc
    simp [rA, rB] at hc

/-- C6 as amended: with no filters, `first_time` is the minimum
`azimuthTimeMin` (the head of the sort), but `last_time` is the
`azimuthTimeMax` of the *last row of the sort by `azimuthTimeMin`* — the
latest-starting row — not the catalogue-wide maximum `azimuthTimeMax`.
The result, sorted by `azimuthTimeMin`, consists of exactly the rows
whose `azimuthTimeMax` does not exceed that value, and equals the full
catalogue precisely when no row ends after the latest-starting row. -/
theorem C6_amended_default_query (cat : List BurstRecord)
    (hne : cat ≠ []) :
    ∃ h0 lastR res, (sortByAzMin cat).head? = some h0 ∧
      (sortByAzMin cat).getLast? = some lastR ∧
      (∀ r ∈ cat, h0.azimuthTimeMin ≤ r.azimuthTimeMin) ∧
      (∀ r ∈ cat, r.azimuthTimeMin ≤ lastR.azimuthTimeMin) ∧
      query_burst cat none none none none = some res ∧
      (∀ r, r ∈ res ↔ r ∈ cat ∧
        r.azimuthTimeMax ≤ lastR.azimuthTimeMax) ∧
      ((∀ r ∈ cat, r.azimuthTimeMax ≤ lastR.azimuthTimeMax) →
        res = sortByAzMin cat) := by
  have hlen : sortByAzMin cat ≠ [] := by
    intro h
    have hl := (List.perm_insertionSort byAzMin cat).length_eq
    rw [show List.insertionSort byAzMin cat = sortByAzMin cat from rfl,
      h] at hl
    exact hne (List.length_eq_zero.mp hl.symm)
  obtain ⟨h0, hh0⟩ := Option.ne_none_iff_exists'.mp
    (fun h => hlen (List.head?_eq_none_iff.mp h))
  obtain ⟨lastR, hlast⟩ := Option.ne_none_iff_exists'.mp
    (fun h => hlen (List.getLast?_eq_none_iff.mp h))
  have hsorted : (sortByAzMin cat).Sorted byAzMin :=
    List.sorted_insertionSort byAzMin cat
  have hmin : ∀ r ∈ cat, h0.azimuthTimeMin ≤ r.azimuthTimeMin := by
    intro r hr
    exact sorted_head?_le hsorted hh0 r
      ((List.mem_insertionSort byAzMin).mpr hr)
  have hmax : ∀ r ∈ cat, r.azimuthTimeMin ≤ lastR.azimuthTimeMin := by
    intro r hr
    exact sorted_le_getLast? hsorted hlast r
      ((List.mem_insertionSort byAzMin).mpr hr)
  have hq : query_burst cat none none none none =
      some ((sortByAzMin cat).filter (fun r =>
        decide (h0.azimuthTimeMin ≤ r.azimuthTimeMin) &&
        decide (r.azimuthTimeMax ≤ lastR.azimuthTimeMax) && true &&
        true)) := by
    rw [query_burst.eq_def]
    simp only [hh0, hlast, Option.map_some']
  refine ⟨h0, lastR, _, hh0, hlast, hmin, hmax, hq, ?_, ?_⟩
  · intro r
    simp only [List.mem_filter, sortByAzMin, List.mem_insertionSort]
    constructor
    · rintro ⟨hmem, hpred⟩
      simp only [Bool.and_eq_true, decide_eq_true_eq] at hpred
      exact ⟨hmem, hpred.1.1.2⟩
    · rintro ⟨hmem, hle⟩
      refine ⟨hmem, ?_⟩
      simp only [Bool.and_eq_true, decide_eq_true_eq]
      exact ⟨⟨⟨hmin r hmem, hle⟩, trivial⟩, trivial⟩
  · intro hall
    apply List.filter_eq_self.mpr
    intro r hr
    have hrc : r ∈ cat := (List.mem_insertionSort byAzMin).mp hr
    simp only [Bool.and_eq_true, decide_eq_true_eq]
    exact ⟨⟨⟨hmin r hrc, hall r hrc⟩, trivial⟩, trivial⟩

/-- Witness for the amended C6 at the two-row catalogue: the no-filter
query succeeds and keeps `rB`. -/
theorem C6_amended_default_query_witness :
    ∃ res, query_burst catW none none none none = some res ∧
      rB ∈ res := by
  obtain ⟨h0, lastR, res, hh0, hlast, hmin, hmax, hq, hiff, hfull⟩ :=
    C6_amended_default_query catW (by simp [catW])
  have hs : sortByAzMin catW = [rA, rB] := by
    norm_num [sortByAzMin, catW, List.insertionSort, List.orderedInsert,
      byAzMin, rA, rB]
  have hlastR : lastR = rB := by
    rw [hs] at hlast
    simpa using hlast.symm
  refine ⟨res, hq, (hiff rB).mpr ⟨by simp [catW], ?_⟩⟩
  rw [hlastR]

/-! ### C2 -/

/-- C2: (a) a successful merge implies every selected burst agreed with
the first selected burst on azimuth sampling and on
`gridStartRangeTime0` — an inconsistent selection never yields a raster;
(b) when all selected bursts agree, the inconsistent-sampling error is
never raised; (c) when the first offending burst is reached after a
clean prefix of the write loop, the merge fails with exactly the
inconsistent-sampling error. -/
theorem C2_inconsistent_sampling (sw : Swath) (burst_var : String)
    (l : List ℤ) (am amx : Option ℚ) (transpose meter : Bool) :
    (∀ res, burstMerger sw burst_var (some l) am amx transpose meter =
        .ok res →
      ∀ i0 fb, l.head? = some i0 → sw.getBurst i0 = some fb →
      ∀ i ∈ l, ∃ b, sw.getBurst i = some b ∧
        b.samplingY = fb.samplingY ∧
        b.gridStartRangeTime0 = fb.gridStartRangeTime0) ∧
    ((∀ i0 fb, l.head? = some i0 → sw.getBurst i0 = some fb →
        ∀ i ∈ l, ∀ b, sw.getBurst i = some b →
          b.samplingY = fb.samplingY ∧
          b.gridStartRangeTime0 = fb.gridStartRangeTime0) →
      burstMerger sw burst_var (some l) am amx transpose meter ≠
        .error .inconsistentSampling) ∧
    (∀ i0 iN fb lb t0 t1 l1 i l2 b acc,
      l.head? = some i0 → l.getLast? = some iN →
      sw.getBurst i0 = some fb → sw.getBurst iN = some lb →
      resolveT0 am fb = some t0 → resolveT1 amx lb = some t1 →
      ¬ numLines t0 t1 fb.samplingY < 0 →
      l = l1 ++ i :: l2 →
      mergeLoop sw burst_var t0 fb.samplingY fb.gridStartRangeTime0
        transpose meter
        (zerosMat (numLines t0 t1 fb.samplingY).toNat sw.rangeExtent)
        l1 = .ok acc →
      sw.getBurst i = some b →
      (b.samplingY ≠ fb.samplingY ∨
        b.gridStartRangeTime0 ≠ fb.gridStartRangeTime0) →
      burstMerger sw burst_var (some l) am amx transpose meter =
        .error .inconsistentSampling) := by
  refine ⟨?_, ?_, ?_⟩
  · intro res h i0 fb h0 hfb i hi
    obtain ⟨i0', iN', fb', lb', t0', t1', h0', hN', hfb', hlb', ht0',
      ht1', hnneg', hloop', _⟩ := burstMerger_ok h
    have hi0 : i0' = i0 := by
      rw [show (some l).getD sw.burst_list = l from rfl] at h0'
      rw [h0'] at h0
      exact (Option.some.inj h0)
    subst hi0
    rw [hfb'] at hfb
    cases Option.some.inj hfb
    exact mergeLoop_ok_consistent hloop' i hi
  · intro hcons
    rw [burstMerger]
    dsimp only
    rw [show (some l).getD sw.burst_list = l from rfl]
    cases h0 : l.head? with
    | none => simp
    | some i0 =>
    cases hN : l.getLast? with
    | none => simp
    | some iN =>
    dsimp only
    cases hfb : sw.getBurst i0 with
    | none => simp
    | some fb =>
    cases hlb : sw.getBurst iN with
    | none => simp
    | some lb =>
    dsimp only
    cases ht0 : resolveT0 am fb with
    | none => simp
    | some t0 =>
    cases ht1 : resolveT1 amx lb with
    | none => simp
    | some t1 =>
    dsimp only
    split_ifs with hneg
    · simp
    · have hne := @mergeLoop_ne_inconsistent sw burst_var t0 fb.samplingY
        fb.gridStartRangeTime0 transpose meter l
        (zerosMat (numLines t0 t1 fb.samplingY).toNat sw.rangeExtent)
        (fun i hi b hb => hcons i0 fb h0 hfb i hi b hb)
      cases hloop : mergeLoop sw burst_var t0 fb.samplingY
          fb.gridStartRangeTime0 transpose meter
          (zerosMat (numLines t0 t1 fb.samplingY).toNat sw.rangeExtent)
          l with
      | error e =>
        rw [hloop] at hne
        simpa using fun he => hne (by rw [he])
      | ok data => simp
  · intro i0 iN fb lb t0 t1 l1 i l2 b acc h0 hN hfb hlb ht0 ht1 hneg hl
      hacc hb hbad
    subst hl
    rw [burstMerger]
    dsimp only
    rw [show (some (l1 ++ i :: l2)).getD sw.burst_list = l1 ++ i :: l2
      from rfl]
    rw [h0, hN]
    dsimp only
    rw [hfb, hlb]
    dsimp only
    rw [ht0, ht1]
    dsimp only
    rw [if_neg hneg, mergeLoop_append, hacc]
    dsimp only
    rw [mergeLoop, mergeStep_inconsistent hb hbad]

/-- Witness for C2 at a concrete inconsistent selection: burst 2's
azimuth sampling (2 s) disagrees with burst 1's (1 s), and the merge
fails with exactly the inconsistent-sampling error. -/
theorem C2_inconsistent_sampling_witness :
    burstMerger swBad "v" (some [1, 2]) none none false false =
      .error .inconsistentSampling := by
  have hg1 : swBad.getBurst 1 = some b1 := by
    simp [swBad, Swath.getBurst, b1, b2bad, List.find?_cons,
      List.find?_nil]
  have hg2 : swBad.getBurst 2 = some b2bad := by
    simp [swBad, Swath.getBurst, b1, b2bad, List.find?_cons,
      List.find?_nil]
  have hacc : mergeLoop swBad "v" 0 b1.samplingY b1.gridStartRangeTime0
      false false
      (zerosMat (numLines 0 4 b1.samplingY).toNat swBad.rangeExtent)
      [1] = .ok [[10], [10], [10], [0], [0]] := by
    norm_num [mergeLoop, mergeStep, writeRows, setRow, getEtadParam,
      zerosMat, numLines, npRound_zero, npRound_one, npRound_two,
      npRound_three, npRound_four, swBad, b1, b2bad, Swath.getBurst,
      List.find?_cons, List.find?_nil]
    rfl
  exact (C2_inconsistent_sampling swBad "v" [1, 2] none none false
      false).2.2 1 2 b1 b2bad 0 4 [1] 2 [] b2bad
    [[10], [10], [10], [0], [0]] rfl rfl hg1 hg2 rfl rfl
    (by norm_num [numLines, npRound_four, b1]) rfl hacc hg2
    (Or.inl (by norm_num [b1, b2bad]))

/-! ### C3 -/

/-- C3: the output raster is allocated with exactly
`num_lines = round((t1 - t0) / dt) + 1` rows and `num_samples`
(the swath's `rangeExtent`) columns, initialized to zero, where `t0` is
the azimuth time of the first sample of the first selected burst (or
the caller's override), `t1` the azimuth time of the last sample of the
last selected burst (or the override), and `dt` the first selected
burst's azimuth sampling; the returned raster keeps exactly those
dimensions. -/
theorem C3_allocation (sw : Swath) (burst_var : String) (l : List ℤ)
    (am amx : Option ℚ) (transpose meter : Bool) (res : MergeResult)
    (i0 iN : ℤ) (fb lb : Burst) (t0 t1 : ℚ)
    (h : burstMerger sw burst_var (some l) am amx transpose meter =
      .ok res)
    (h0 : l.head? = some i0) (hN : l.getLast? = some iN)
    (hfb : sw.getBurst i0 = some fb) (hlb : sw.getBurst iN = some lb)
    (ht0 : resolveT0 am fb = some t0)
    (ht1 : resolveT1 amx lb = some t1) :
    0 ≤ numLines t0 t1 fb.samplingY ∧
    res.data.length = (numLines t0 t1 fb.samplingY).toNat ∧
    (∀ row ∈ res.data, row.length = sw.rangeExtent) ∧
    (zerosMat (numLines t0 t1 fb.samplingY).toNat sw.rangeExtent).length
      = (numLines t0 t1 fb.samplingY).toNat ∧
    ∀ row ∈ zerosMat (numLines t0 t1 fb.samplingY).toNat sw.rangeExtent,
      row.length = sw.rangeExtent ∧ ∀ v ∈ row, v = 0 := by
  obtain ⟨i0', iN', fb', lb', t0', t1', h0', hN', hfb', hlb', ht0', ht1',
    hnneg, hloop, _⟩ := burstMerger_ok h
  rw [show (some l).getD sw.burst_list = l from rfl] at h0' hN' hloop
  rw [h0'] at h0
  cases Option.some.inj h0
  rw [hN'] at hN
  cases Option.some.inj hN
  rw [hfb'] at hfb
  cases Option.some.inj hfb
  rw [hlb'] at hlb
  cases Option.some.inj hlb
  rw [ht0'] at ht0
  cases Option.some.inj ht0
  rw [ht1'] at ht1
  cases Option.some.inj ht1
  refine ⟨hnneg, ?_, ?_, by simp [zerosMat], ?_⟩
  · rw [mergeLoop_ok_length hloop]
    simp [zerosMat]
  · exact mergeLoop_ok_width hloop (fun row hrow => by
      have hrow2 := List.eq_of_mem_replicate hrow
      subst hrow2
      simp)
  · intro row hrow
    have hrow2 := List.eq_of_mem_replicate hrow
    subst hrow2
    exact ⟨by simp, fun v hv => List.eq_of_mem_replicate hv⟩

/-- Witness for C3 on the two-burst swath: the merged raster has
`round((4 - 0)/1) + 1 = 5` rows of one sample each. -/
theorem C3_allocation_witness :
    ∃ res, burstMerger swAB "v" (some [1, 2]) none none false false =
      .ok res ∧ res.data.length = (numLines 0 4 b1.samplingY).toNat ∧
      ∀ row ∈ res.data, row.length = swAB.rangeExtent := by
  have hm : burstMerger swAB "v" (some [1, 2]) none none false false =
      .ok ⟨[[10], [10], [20], [20], [20]], 0, 0, 1, 1⟩ := by
    norm_num [burstMerger, mergeLoop, mergeStep, writeRows, setRow,
      getEtadParam, zerosMat, numLines, npRound_zero, npRound_one,
      npRound_two, npRound_three, npRound_four, resolveT0, resolveT1,
      swAB, b1, b2, Swath.getBurst, Swath.burst_list,
      List.find?_cons, List.find?_nil]
    rfl
  have hg1 : swAB.getBurst 1 = some b1 := by
    simp [swAB, Swath.getBurst, b1, b2, List.find?_cons, List.find?_nil]
  have hg2 : swAB.getBurst 2 = some b2 := by
    simp [swAB, Swath.getBurst, b1, b2, List.find?_cons, List.find?_nil]
  obtain ⟨_, hlen, hwide, _⟩ := C3_allocation swAB "v" [1, 2] none none
    false false _ 1 2 b1 b2 0 4 hm rfl rfl hg1 hg2 rfl rfl
  exact ⟨_, hm, hlen, hwide⟩

/-! ### C10 -/

/-- C10 counterexample: an on-grid burst sample *outside* the merge
window does not necessarily violate the row bound.  With `t0 = 0`,
`dt = 1`, `t1 = 8/5`, the allocation is `round(8/5) + 1 = 3` rows; the
sample at azimuth time `2 > 8/5` lies outside `[t0, t1]` yet its line
index `round((2-0)/1) = 2` still lies within `[0, num_lines - 1]`,
because the allocation rounded upward. -/
theorem C10_counterexample :
    (8 : ℚ) / 5 < 2 ∧ (2 : ℚ) = 0 + (2 : ℕ) * 1 ∧
    npRound ((2 - 0) / 1) = 2 ∧
    (0 : ℤ) ≤ 2 ∧ 2 < numLines 0 (8 / 5) 1 ∧
    numLines 0 (8 / 5) 1 = 3 := by
  refine ⟨by norm_num, by norm_num, ?_, by norm_num, ?_, ?_⟩ <;>
    norm_num [numLines, npRound]

/-- C10 as amended: for a burst whose azimuth samples lie on the uniform
`dt` grid within the merge window `[t0, t1]`, every line index computed
in the write loop lies in `[0, num_lines - 1]`, so the row write never
indexes outside the allocated raster.  No clipping is performed: an
on-grid sample below `t0` always gets a negative index, a write at a row
index at or beyond the allocated length is a numpy `IndexError`, and the
sample at `t0 + k·dt` is written to row `k`, so any on-grid sample whose
index reaches `num_lines` fails — only a sample above `t1` by less than
the rounding slack can still land on the last allocated row. -/
theorem C10_amended_line_index_bounds (b : Burst) (t0 t1 dt : ℚ)
    (hdt : 0 < dt)
    (hgrid : ∀ t ∈ b.azimuth, ∃ k : ℕ, t = t0 + k * dt ∧ t ≤ t1) :
    (∀ idx ∈ b.azimuth.map (fun t => npRound ((t - t0) / dt)),
      0 ≤ idx ∧ idx < numLines t0 t1 dt) ∧
    (∀ j : ℕ, 0 < j → npRound ((t0 - j * dt - t0) / dt) < 0) ∧
    (∀ (m : List (List ℚ)) (row : List ℚ) (idx : ℤ),
      (m.length : ℤ) ≤ idx → setRow m idx row = none) ∧
    (∀ k : ℕ, npRound ((t0 + k * dt - t0) / dt) = k) := by
  have hdt0 : dt ≠ 0 := ne_of_gt hdt
  have hk : ∀ k : ℕ, npRound ((t0 + k * dt - t0) / dt) = k := by
    intro k
    have : (t0 + k * dt - t0) / dt = ((k : ℤ) : ℚ) := by
      push_cast
      field_simp
    rw [this, npRound_intCast]
  refine ⟨?_, ?_, ?_, hk⟩
  · intro idx hidx
    obtain ⟨t, ht, rfl⟩ := List.mem_map.mp hidx
    obtain ⟨k, rfl, hle⟩ := hgrid t ht
    rw [hk k]
    refine ⟨Int.natCast_nonneg k, ?_⟩
    have hkle : ((k : ℤ) : ℚ) ≤ (t1 - t0) / dt := by
      rw [le_div_iff₀ hdt]
      push_cast
      linarith
    have := le_npRound_of_le (k : ℤ) _ hkle
    unfold numLines
    omega
  · intro j hj
    have : (t0 - j * dt - t0) / dt = ((-(j : ℤ) : ℤ) : ℚ) := by
      push_cast
      field_simp
    rw [this, npRound_intCast]
    omega
  · intro m row idx hge
    unfold setRow
    rw [if_neg (by omega), if_neg (by omega)]

/-- Witness for the amended C10: a concrete three-sample burst on the
unit grid inside the window `[0, 2]` gets indices in `[0, 2]`; a sample
one step below `t0` gets index `-1`; a write at row 3 of a 3-row raster
is an `IndexError`. -/
theorem C10_amended_line_index_bounds_witness :
    (∀ idx ∈ b1.azimuth.map (fun t => npRound ((t - 0) / 1)),
      0 ≤ idx ∧ idx < numLines 0 2 1) ∧
    npRound ((0 - (1 : ℕ) * 1 - 0) / 1) < 0 ∧
    setRow (zerosMat 3 1) 3 [7] = none := by
  have h := C10_amended_line_index_bounds b1 0 2 1 (by norm_num)
    (by
      intro t ht
      simp only [b1, List.mem_cons, List.not_mem_nil, or_false] at ht
      rcases ht with rfl | rfl | rfl
      · exact ⟨0, by norm_num⟩
      · exact ⟨1, by norm_num⟩
      · exact ⟨2, by norm_num⟩)
  exact ⟨h.1, h.2.1 1 (by norm_num), h.2.2.1 (zerosMat 3 1) [7] 3
    (by simp [zerosMat])⟩

/-! ### C1 -/

/-- C1 counterexample: the merger does not sort the caller's
`burst_index_list` by `bIndex`.  With two fully overlapping bursts
(values 10 for `bIndex` 1 and 20 for `bIndex` 2) passed in descending
order `[2, 1]`, the merged raster's rows all equal 10 — the value of the
*lower*-index burst, which was written last in list order — not the
highest-index burst's 20. -/
theorem C1_counterexample :
    burstMerger swFull "v" (some [2, 1]) none none false false =
      .ok ⟨[[10], [10], [10]], 0, 0, 1, 1⟩ ∧
    b1.bIndex = 1 ∧ b2full.bIndex = 2 ∧
    getEtadParam b2full "v" false false = some [[20], [20], [20]] ∧
    ([[10], [10], [10]] : List (List ℚ)) ≠ [[20], [20], [20]] := by
  refine ⟨?_, rfl, rfl, by simp [getEtadParam, b2full], by norm_num⟩
  norm_num [burstMerger, mergeLoop, mergeStep, writeRows, setRow,
    getEtadParam, zerosMat, numLines, npRound_zero, npRound_one,
    npRound_two, npRound_three, npRound_four, resolveT0, resolveT1,
    swFull, b1, b2full, Swath.getBurst, Swath.burst_list,
    List.find?_cons, List.find?_nil]
  rfl

/-- C1 as amended: the write loop iterates the caller's
`burst_index_list` in the order given — no sort by `bIndex` is
performed — so overlap resolution is last-write-wins in *list order*:
whenever the merge succeeds (with all computed line indices
non-negative), each raster row equals the most recent write targeting it
in the concatenated, list-ordered write sequence, and rows never written
stay zero.  The highest-`bIndex` burst wins an overlap exactly when the
caller's list is in ascending `bIndex` order, as with the default
whole-swath selection. -/
theorem C1_amended_last_write_wins (sw : Swath) (burst_var : String)
    (l : List ℤ) (am amx : Option ℚ) (transpose meter : Bool)
    (res : MergeResult) (i0 iN : ℤ) (fb lb : Burst) (t0 t1 : ℚ)
    (h : burstMerger sw burst_var (some l) am amx transpose meter =
      .ok res)
    (h0 : l.head? = some i0) (hN : l.getLast? = some iN)
    (hfb : sw.getBurst i0 = some fb) (hlb : sw.getBurst iN = some lb)
    (ht0 : resolveT0 am fb = some t0) (ht1 : resolveT1 amx lb = some t1)
    (hnn : ∀ p ∈ allWrites sw burst_var t0 fb.samplingY transpose meter l,
      0 ≤ p.1) :
    ∀ r : ℕ, res.data[r]? =
      match (allWrites sw burst_var t0 fb.samplingY transpose meter
          l).reverse.find? (fun p => p.1 == (r : ℤ)) with
      | some p => some p.2
      | none =>
        (zerosMat (numLines t0 t1 fb.samplingY).toNat
          sw.rangeExtent)[r]? := by
  obtain ⟨i0', iN', fb', lb', t0', t1', h0', hN', hfb', hlb', ht0', ht1',
    hnneg, hloop, _⟩ := burstMerger_ok h
  rw [show (some l).getD sw.burst_list = l from rfl] at h0' hN' hloop
  rw [h0'] at h0
  cases Option.some.inj h0
  rw [hN'] at hN
  cases Option.some.inj hN
  rw [hfb'] at hfb
  cases Option.some.inj hfb
  rw [hlb'] at hlb
  cases Option.some.inj hlb
  rw [ht0'] at ht0
  cases Option.some.inj ht0
  rw [ht1'] at ht1
  cases Option.some.inj ht1
  exact writeRows_getElem? (mergeLoop_ok_writes hloop) hnn

/-- Witness for the amended C1 on the ascending two-burst selection: the
overlap row 2 is owned by burst 2 — the last burst in list order, here
also the highest `bIndex` — whose value is 20. -/
theorem C1_amended_last_write_wins_witness :
    ∃ res, burstMerger swAB "v" (some [1, 2]) none none false false =
      .ok res ∧ res.data[2]? = some [20] ∧ b2.bIndex = 2 := by
  have hm : burstMerger swAB "v" (some [1, 2]) none none false false =
      .ok ⟨[[10], [10], [20], [20], [20]], 0, 0, 1, 1⟩ := by
    norm_num [burstMerger, mergeLoop, mergeStep, writeRows, setRow,
      getEtadParam, zerosMat, numLines, npRound_zero, npRound_one,
      npRound_two, npRound_three, npRound_four, resolveT0, resolveT1,
      swAB, b1, b2, Swath.getBurst, Swath.burst_list,
      List.find?_cons, List.find?_nil]
    rfl
  have hg1 : swAB.getBurst 1 = some b1 := by
    simp [swAB, Swath.getBurst, b1, b2, List.find?_cons, List.find?_nil]
  have hg2 : swAB.getBurst 2 = some b2 := by
    simp [swAB, Swath.getBurst, b1, b2, List.find?_cons, List.find?_nil]
  have hall : allWrites swAB "v" 0 b1.samplingY false false [1, 2] =
      [(0, [10]), (1, [10]), (2, [10]), (2, [20]), (3, [20]),
        (4, [20])] := by
    norm_num [allWrites, burstWrites, hg1, hg2, getEtadParam, b1, b2,
      npRound_zero, npRound_one, npRound_two, npRound_three,
      npRound_four]
  have h := C1_amended_last_write_wins swAB "v" [1, 2] none none false
    false _ 1 2 b1 b2 0 4 hm rfl rfl hg1 hg2 rfl rfl
    (by rw [hall]; norm_num) 2
  refine ⟨_, hm, ?_, rfl⟩
  rw [h, hall]
  norm_num [List.find?_cons, List.find?_nil]

/-! ### C4 -/

/-- C4: merging a single-burst selection (no time overrides) degenerates
to a direct copy: when the burst's azimuth grid is the uniform `dt` grid
starting at its first sample, the returned raster *is* the burst's own
correction grid as produced by the per-burst retrieval (after axis
transpose when `transpose` is set), `num_lines` equals the burst's own
line count, and the first burst sample maps to output row 0. -/
theorem C4_single_burst (sw : Swath) (burst_var : String) (i : ℤ)
    (b : Burst) (V : List (List ℚ)) (transpose meter : Bool) (a0 : ℚ)
    (hb : sw.getBurst i = some b)
    (hV : getEtadParam b burst_var transpose meter = some V)
    (hlen : V.length = b.azimuth.length)
    (hwide : ∀ row ∈ V, row.length = sw.rangeExtent)
    (hane : b.azimuth ≠ [])
    (hdt : 0 < b.samplingY)
    (ha0 : b.azimuth.head? = some a0)
    (hgrid : ∀ k (hk : k < b.azimuth.length),
      b.azimuth[k] = a0 + k * b.samplingY) :
    burstMerger sw burst_var (some [i]) none none transpose meter =
      .ok { data := V, first_azimuth_time := a0,
            first_slant_range_time := b.gridStartRangeTime0,
            samplingX := b.samplingX, samplingY := b.samplingY } ∧
    numLines a0 (a0 + ((b.azimuth.length : ℚ) - 1) * b.samplingY)
      b.samplingY = (b.azimuth.length : ℤ) ∧
    npRound ((a0 - a0) / b.samplingY) = 0 := by
  have hdt0 : b.samplingY ≠ 0 := ne_of_gt hdt
  have hn : 0 < b.azimuth.length := List.length_pos.mpr hane
  have hnl : numLines a0
      (a0 + ((b.azimuth.length : ℚ) - 1) * b.samplingY) b.samplingY =
      (b.azimuth.length : ℤ) := by
    unfold numLines
    have heq : (a0 + ((b.azimuth.length : ℚ) - 1) * b.samplingY - a0) /
        b.samplingY = (((b.azimuth.length : ℤ) - 1 : ℤ) : ℚ) := by
      push_cast
      field_simp
    rw [heq, npRound_intCast]
    omega
  have hzero : npRound ((a0 - a0) / b.samplingY) = 0 := by
    rw [sub_self, zero_div, npRound_zero]
  refine ⟨?_, hnl, hzero⟩
  have hlast : b.azimuth.getLast? =
      some (a0 + ((b.azimuth.length : ℚ) - 1) * b.samplingY) := by
    rw [List.getLast?_eq_getElem?,
      List.getElem?_eq_getElem (by omega : b.azimuth.length - 1 <
        b.azimuth.length),
      hgrid (b.azimuth.length - 1) (by omega)]
    congr 2
    push_cast [hn]
    ring
  have hidx : b.azimuth.map (fun t => npRound ((t - a0) / b.samplingY)) =
      (List.range' 0 b.azimuth.length).map Int.ofNat := by
    apply List.ext_getElem
    · simp
    · intro k h1 h2
      rw [List.getElem_map, List.getElem_map, List.getElem_range']
      have hk : k < b.azimuth.length := by simpa using h1
      rw [hgrid k hk]
      have heq : (a0 + (k : ℚ) * b.samplingY - a0) / b.samplingY =
          (((k : ℤ) : ℤ) : ℚ) := by
        push_cast
        field_simp
      rw [heq, npRound_intCast]
      simp
  have hwr : writeRows
      (zerosMat (b.azimuth.length : ℤ).toNat sw.rangeExtent)
      ((b.azimuth.map (fun t => npRound ((t - a0) / b.samplingY))).zip
        V) = some V := by
    rw [hidx, show b.azimuth.length = V.length from hlen.symm]
    have := writeRows_id V
      (zerosMat (V.length : ℤ).toNat sw.rangeExtent) 0
      (by simp [zerosMat])
    simpa [zerosMat] using this
  rw [burstMerger]
  dsimp only
  rw [show (some [i]).getD sw.burst_list = [i] from rfl,
    show ([i] : List ℤ).head? = some i from rfl,
    show ([i] : List ℤ).getLast? = some i from rfl]
  dsimp only
  rw [hb]
  dsimp only
  rw [show resolveT0 none b = b.azimuth.head? from rfl,
    show resolveT1 none b = b.azimuth.getLast? from rfl, ha0, hlast]
  dsimp only
  rw [hnl, if_neg (by omega), mergeLoop, mergeStep, hb]
  dsimp only
  rw [if_neg (by simp), if_neg (by simp), hV]
  dsimp only
  rw [if_neg (by simp [hlen]),
    if_neg (by
      simp only [ne_eq, decide_not]
      rw [Bool.not_eq_true, List.any_eq_false]
      intro row hrow
      simp [hwide row hrow]), hwr]
  dsimp only
  rw [mergeLoop]

/-- A single-burst swath with a 2×2 stored variable, used to exercise
the single-burst round trip with axis transpose. -/
def b4 : Burst :=
  { bIndex := 7, samplingX := 1, samplingY := 1, gridStartRangeTime0 := 9,
    daz_m := 14, azimuth := [5, 6],
    vars := fun s => if s = "v" then some [[1, 3], [2, 4]] else none }

/-- The swath holding only `b4`, with two range samples. -/
def sw4 : Swath := { bursts := [b4], rangeExtent := 2 }

/-- Witness for C4: the single-burst merge of `b4` returns exactly the
transposed stored grid, with the burst's own first azimuth time and
range origin. -/
theorem C4_single_burst_witness :
    burstMerger sw4 "v" (some [7]) none none true false =
      .ok { data := [[1, 2], [3, 4]], first_azimuth_time := 5,
            first_slant_range_time := 9, samplingX := 1,
            samplingY := 1 } := by
  have hb : sw4.getBurst 7 = some b4 := by
    simp [sw4, Swath.getBurst, b4, List.find?_cons, List.find?_nil]
  have hV : getEtadParam b4 "v" true false = some [[1, 2], [3, 4]] := rfl
  have h := C4_single_burst sw4 "v" 7 b4 [[1, 2], [3, 4]] true false 5
    hb hV (by norm_num [b4])
    (by
      intro row hrow
      simp only [List.mem_cons, List.not_mem_nil, or_false] at hrow
      rcases hrow with rfl | rfl <;> norm_num [sw4])
    (by simp [b4]) (by norm_num [b4]) rfl
    (by
      intro k hk
      have hk2 : k < 2 := by simpa [b4] using hk
      simp only [b4]
      interval_cases k <;> norm_num)
  simpa [b4] using h.1

end S1Etad
